import Mathlib

/-!
Verification development for the `js-dom` remote command-dispatch bridge
(`src/Remote.ts`, `src/TestRemoteConnector.ts`).

The embedding models JavaScript runtime values as an inductive `JsValue`.
Function values are defunctionalised as the inductive `Method` together
with the interpreter `applyMethod` (a JS function value cannot occur
directly inside an inductive type); the `Method` constructors cover the
function shapes used by the repository's own test fixtures.
JS exceptions (TypeError on member access of null/undefined, calling a
non-function, iterating a non-iterable, and JSON.parse failure) are made
explicit via `Except` / error options.
-/

set_option autoImplicit false

namespace JsDom

mutual

/-- A JavaScript runtime value, as reachable from JSON payloads and the
test fixtures of the repository. Numbers are modelled as integers (no
claim involves fractional values). -/
inductive JsValue where
  | vNull
  | vUndefined
  | vBool (b : Bool)
  | vNum (n : Int)
  | vStr (s : String)
  | vArr (elems : List JsValue)
  | vObj (fields : List (String × JsValue))
  | vFun (m : Method)

/-- Defunctionalised JS function bodies (receiver, argument list) →
value. The constructors cover the method shapes exercised by the
repository's fixtures, e.g. `c(p, q) { return p + q + this.prop }`. -/
inductive Method where
  | constRet (v : JsValue)
  | getThisProp (name : String)
  | concatArgsThenProp (name : String)

end

namespace JsValue

/-- JS `value == null || value == undefined` (the values coalesced by `??`
and the ones whose member access throws a TypeError). -/
def isNullish : JsValue → Bool
  | .vNull => true
  | .vUndefined => true
  | _ => false

/-- JS `value instanceof Array` on parsed JSON values. -/
def isArr : JsValue → Bool
  | .vArr _ => true
  | _ => false

/-- JS `typeof` (note `typeof null === "object"`). -/
def jsTypeof : JsValue → String
  | .vNull => "object"
  | .vUndefined => "undefined"
  | .vBool _ => "boolean"
  | .vNum _ => "number"
  | .vStr _ => "string"
  | .vArr _ => "object"
  | .vObj _ => "object"
  | .vFun _ => "function"

end JsValue

/-- First binding of a key among an object's own fields; absent keys read
as `undefined`. (No object built in this development carries a duplicate
key, so first-match agrees with JS last-write-wins semantics.) -/
def lookupField : List (String × JsValue) → String → JsValue
  | [], _ => .vUndefined
  | (k, v) :: rest, key => if k = key then v else lookupField rest key

mutual

/-- JS `String(value)` / string coercion via `"" + value`. A function's
source text is modelled opaquely as `"function"`. -/
def jsToString : JsValue → String
  | .vNull => "null"
  | .vUndefined => "undefined"
  | .vBool b => cond b "true" "false"
  | .vNum n => toString n
  | .vStr s => s
  | .vArr l => jsToStringElems l
  | .vObj _ => "[object Object]"
  | .vFun _ => "function"

/-- JS `Array.prototype.toString`: elements joined with `","`, with `null`
and `undefined` elements rendered as the empty string. -/
def jsToStringElems : List JsValue → String
  | [] => ""
  | [.vNull] => ""
  | [.vUndefined] => ""
  | [v] => jsToString v
  | .vNull :: rest => "," ++ jsToStringElems rest
  | .vUndefined :: rest => "," ++ jsToStringElems rest
  | v :: rest => jsToString v ++ "," ++ jsToStringElems rest

end

/-- Total own-property read used inside defunctionalised method bodies
(`this.prop`); reads on non-objects yield `undefined`. -/
def objGet : JsValue → String → JsValue
  | .vObj fields, k => lookupField fields k
  | _, _ => .vUndefined

/-- Interpreter for defunctionalised JS function values:
`applyMethod m recv args` is the value `m` returns when called with
`this = recv` and argument list `args`. -/
def applyMethod : Method → JsValue → List JsValue → JsValue
  | .constRet v, _, _ => v
  | .getThisProp n, recv, _ => objGet recv n
  | .concatArgsThenProp n, recv, args =>
    .vStr (String.join (args.map jsToString) ++ jsToString (objGet recv n))

/-! ## JSON serialisation (`JSON.stringify`) -/

/-- Two lowercase hex digits of a byte, for `\uXXXX` escapes. -/
def hex2 (n : Nat) : String :=
  String.mk [Nat.digitChar (n / 16 % 16), Nat.digitChar (n % 16)]

/-- The `JSON.stringify` escaping of a single character inside a string
literal. -/
def jsonEscapeChar (c : Char) : String :=
  if c = '"' then "\\\""
  else if c = '\\' then "\\\\"
  else if c = '\n' then "\\n"
  else if c = '\r' then "\\r"
  else if c = '\t' then "\\t"
  else if c = '\x08' then "\\b"
  else if c = '\x0c' then "\\f"
  else if c.toNat < 32 then "\\u00" ++ hex2 c.toNat
  else String.singleton c

/-- The `JSON.stringify` escaping of a string body. -/
def jsonEscapeStr (s : String) : String :=
  String.join (s.data.map jsonEscapeChar)

/-- A JSON string literal: body escaped and wrapped in quotes. -/
def jsonQuote (s : String) : String :=
  "\"" ++ jsonEscapeStr s ++ "\""

/-- Join pre-rendered members with commas (the separator placement of
`JSON.stringify`). -/
def joinComma : List String → String
  | [] => ""
  | [x] => x
  | x :: rest => x ++ "," ++ joinComma rest

/-- Values that `JSON.stringify` omits from objects (and renders as
`null` inside arrays). -/
def jsonSkipped : JsValue → Bool
  | .vUndefined => true
  | .vFun _ => true
  | _ => false

mutual

/-- Models `JSON.stringify`. A top-level `undefined`/function (where JS yields
no string at all) is rendered `"null"`; that case is unreachable from
the dispatcher, which only stringifies objects, arrays and `null`. -/
def jsonStringify : JsValue → String
  | .vNull => "null"
  | .vUndefined => "null"
  | .vBool b => cond b "true" "false"
  | .vNum n => toString n
  | .vStr s => jsonQuote s
  | .vArr l => "[" ++ joinComma (jsonElems l) ++ "]"
  | .vObj fields => "\x7b" ++ joinComma (jsonFields fields) ++ "\x7d"
  | .vFun _ => "null"

/-- Rendered object members, skipping `undefined`/function values. -/
def jsonFields : List (String × JsValue) → List String
  | [] => []
  | (k, v) :: rest =>
    if jsonSkipped v then jsonFields rest
    else (jsonQuote k ++ ":" ++ jsonStringify v) :: jsonFields rest

/-- Rendered array elements; skipped values render as `null`. -/
def jsonElems : List JsValue → List String
  | [] => []
  | v :: rest =>
    (if jsonSkipped v then "null" else jsonStringify v) :: jsonElems rest

end

/-! ## JSON parsing (`JSON.parse`)

A fuel-indexed recursive-descent reader. Numbers are read as integers
and a fractional/exponent tail is rejected (no claim involves
non-integral numbers); a failed parse models the `SyntaxError` that
`JSON.parse` throws. -/

/-- JSON whitespace. -/
def isJsonWs (c : Char) : Bool :=
  c = ' ' || c = '\n' || c = '\r' || c = '\t'

/-- Drop leading JSON whitespace. -/
def skipWs : List Char → List Char
  | [] => []
  | c :: rest => if isJsonWs c then skipWs rest else c :: rest

/-- Value of a hex digit. -/
def hexVal (c : Char) : Option Nat :=
  if '0' ≤ c ∧ c ≤ '9' then some (c.toNat - 48)
  else if 'a' ≤ c ∧ c ≤ 'f' then some (c.toNat - 87)
  else if 'A' ≤ c ∧ c ≤ 'F' then some (c.toNat - 55)
  else none

/-- Decode the character after a backslash in a JSON string literal. -/
def decodeEscape : List Char → Option (Char × List Char)
  | [] => none
  | c :: rest =>
    if c = '"' then some ('"', rest)
    else if c = '\\' then some ('\\', rest)
    else if c = '/' then some ('/', rest)
    else if c = 'n' then some ('\n', rest)
    else if c = 't' then some ('\t', rest)
    else if c = 'r' then some ('\r', rest)
    else if c = 'b' then some ('\x08', rest)
    else if c = 'f' then some ('\x0c', rest)
    else if c = 'u' then
      match rest with
      | h1 :: h2 :: h3 :: h4 :: rest2 =>
        match hexVal h1, hexVal h2, hexVal h3, hexVal h4 with
        | some a, some b, some c2, some d =>
          some (Char.ofNat (((a * 16 + b) * 16 + c2) * 16 + d), rest2)
        | _, _, _, _ => none
      | _ => none
    else none

/-- Read a JSON string body after the opening quote. -/
def parseStrBody : Nat → List Char → Option (String × List Char)
  | 0, _ => none
  | _, [] => none
  | fuel + 1, c :: rest =>
    if c = '"' then some ("", rest)
    else if c = '\\' then
      match decodeEscape rest with
      | some (d, rest2) =>
        match parseStrBody fuel rest2 with
        | some (s, r) => some (String.singleton d ++ s, r)
        | none => none
      | none => none
    else
      match parseStrBody fuel rest with
      | some (s, r) => some (String.singleton c ++ s, r)
      | none => none

/-- Read a run of decimal digits into an accumulator. -/
def parseDigits : List Char → Nat → Nat × List Char
  | [], acc => (acc, [])
  | c :: rest, acc =>
    if c.isDigit then parseDigits rest (acc * 10 + (c.toNat - 48))
    else (acc, c :: rest)

/-- Read a nonnegative JSON integer; a fractional or exponent tail is
rejected (unmodelled). -/
def parseNat : List Char → Option (Nat × List Char)
  | [] => none
  | c :: rest =>
    if c.isDigit then
      match parseDigits (c :: rest) 0 with
      | (n, r) =>
        match r with
        | '.' :: _ => none
        | 'e' :: _ => none
        | 'E' :: _ => none
        | _ => some (n, r)
    else none

mutual

/-- Read one JSON value (after optional leading whitespace). -/
def parseVal : Nat → List Char → Option (JsValue × List Char)
  | 0, _ => none
  | fuel + 1, cs =>
    match skipWs cs with
    | [] => none
    | c :: rest =>
      if c = '"' then
        match parseStrBody (fuel + 1) rest with
        | some (s, r) => some (.vStr s, r)
        | none => none
      else if c = '[' then
        match skipWs rest with
        | ']' :: r => some (.vArr [], r)
        | r =>
          match parseElems fuel r with
          | some (l, r2) => some (.vArr l, r2)
          | none => none
      else if c = '\x7b' then
        match skipWs rest with
        | '\x7d' :: r => some (.vObj [], r)
        | r =>
          match parseMembers fuel r with
          | some (fs, r2) => some (.vObj fs, r2)
          | none => none
      else if c = 't' then
        match rest with
        | 'r' :: 'u' :: 'e' :: r => some (.vBool true, r)
        | _ => none
      else if c = 'f' then
        match rest with
        | 'a' :: 'l' :: 's' :: 'e' :: r => some (.vBool false, r)
        | _ => none
      else if c = 'n' then
        match rest with
        | 'u' :: 'l' :: 'l' :: r => some (.vNull, r)
        | _ => none
      else if c = '-' then
        match parseNat rest with
        | some (n, r) => some (.vNum (-(n : Int)), r)
        | none => none
      else
        match parseNat (c :: rest) with
        | some (n, r) => some (.vNum (n : Int), r)
        | none => none

/-- Read the elements of a nonempty JSON array (after `[`). -/
def parseElems : Nat → List Char → Option (List JsValue × List Char)
  | 0, _ => none
  | fuel + 1, cs =>
    match parseVal fuel cs with
    | none => none
    | some (v, r) =>
      match skipWs r with
      | ',' :: r2 =>
        match parseElems fuel r2 with
        | some (l, r3) => some (v :: l, r3)
        | none => none
      | ']' :: r2 => some ([v], r2)
      | _ => none

/-- Read the members of a nonempty JSON object (after the opening
brace). -/
def parseMembers : Nat → List Char → Option (List (String × JsValue) × List Char)
  | 0, _ => none
  | fuel + 1, cs =>
    match skipWs cs with
    | '"' :: r =>
      match parseStrBody (fuel + 1) r with
      | none => none
      | some (k, r2) =>
        match skipWs r2 with
        | ':' :: r3 =>
          match parseVal fuel r3 with
          | none => none
          | some (v, r4) =>
            match skipWs r4 with
            | ',' :: r5 =>
              match parseMembers fuel r5 with
              | some (fs, r6) => some ((k, v) :: fs, r6)
              | none => none
            | '\x7d' :: r5 => some ([(k, v)], r5)
            | _ => none
        | _ => none
    | _ => none

end

/-- Models `JSON.parse`: `none` models the thrown `SyntaxError`. -/
def jsonParse (s : String) : Option JsValue :=
  match parseVal (s.length + 1) s.data with
  | some (v, r) =>
    match skipWs r with
    | [] => some v
    | _ => none
  | none => none

/-! ## `visitObject` (src/Remote.ts lines 14–21) -/

/-- JS runtime exceptions surfaced by the embedded code paths. -/
inductive JsError where
  /-- TypeError: member access on `null`/`undefined`. -/
  | readOfNullish
  /-- TypeError: called a value that is not a function. -/
  | notAFunction
  /-- TypeError: `for...of` / spread over a non-iterable value. -/
  | notIterable
  deriving DecidableEq

/-- Read a property key as an array index (all-digit nonempty string). -/
def strToIndex (s : String) : Option Nat :=
  match s.data with
  | [] => none
  | l => if l.all Char.isDigit then some (parseDigits l 0).1 else none

/-- JS `value[key]` member read. Reads on `null`/`undefined` throw; a
string or array boxes to an object exposing `length` (and, for arrays,
index properties); other built-in prototype members are modelled as
absent, which no claim exercises. -/
def getMember (value : JsValue) (key : String) : Except JsError JsValue :=
  match value with
  | .vNull => .error .readOfNullish
  | .vUndefined => .error .readOfNullish
  | .vObj fields => .ok (lookupField fields key)
  | .vStr s => .ok (if key = "length" then .vNum s.length else .vUndefined)
  | .vArr l =>
    .ok (if key = "length" then .vNum l.length
      else
        match strToIndex key with
        | some i => l.getD i .vUndefined
        | none => .vUndefined)
  | _ => .ok .vUndefined

/-- JS `ToPropertyKey` for non-symbol values (string coercion). -/
def toPropertyKey (v : JsValue) : String := jsToString v

/-- The `for...of` / spread iteration protocol: arrays yield their
elements, strings their characters; every other value of this model is
not iterable. -/
def iterateJs : JsValue → Option (List JsValue)
  | .vArr l => some l
  | .vStr s => some (s.data.map fun c => .vStr (String.singleton c))
  | _ => none

/-- Evaluation of `arg.args || []` followed by spread: falsy values are replaced by
the empty list; a truthy non-iterable cannot be spread. -/
def spreadArgsOrEmpty (v : JsValue) : Except JsError (List JsValue) :=
  match v with
  | .vUndefined => .ok []
  | .vNull => .ok []
  | .vBool false => .ok []
  | .vNum 0 => .ok []
  | .vStr "" => .ok []
  | .vArr l => .ok l
  | .vStr s => .ok (s.data.map fun c => .vStr (String.singleton c))
  | _ => .error .notIterable

/-- One loop iteration of `visitObject`:
`if (typeof arg === "string") value = value[arg]`
`else value = value[arg.name].call(value, ...(arg.args || []))`,
with JS evaluation order (`arg.name` is read before `value`'s member,
the callee's nullishness faults before the arguments are spread). -/
def visitStep (value arg : JsValue) : Except JsError JsValue :=
  match arg with
  | .vStr s => getMember value s
  | _ => do
    let nv ← getMember arg "name"
    let fv ← getMember value (toPropertyKey nv)
    match fv with
    | .vNull => .error .readOfNullish
    | .vUndefined => .error .readOfNullish
    | _ => do
      let av ← getMember arg "args"
      let callArgs ← spreadArgsOrEmpty av
      match fv with
      | .vFun m => .ok (applyMethod m value callArgs)
      | _ => .error .notAFunction

/-- The `for (let arg of args)` loop body of `visitObject`, over an
already-iterated step list. -/
def visitPath (value : JsValue) : List JsValue → Except JsError JsValue
  | [] => .ok value
  | arg :: rest =>
    match visitStep value arg with
    | .error e => .error e
    | .ok v2 => visitPath v2 rest

/-- The coalescing `value ?? ""`: the final nullish coalescing of `visitObject`. -/
def coalesceEmpty (v : JsValue) : JsValue :=
  if v.isNullish then .vStr "" else v

/-- The function `visitObject(obj, args)` from src/Remote.ts: iterate `args` with
`for...of` (throwing if it is not iterable), fold the step rule over the
steps, and return `value ?? ""`. -/
def visitObject (obj : JsValue) (args : JsValue) : Except JsError JsValue :=
  match iterateJs args with
  | none => .error .notIterable
  | some steps =>
    match visitPath obj steps with
    | .error e => .error e
    | .ok v => .ok (coalesceEmpty v)

/-! ## The `Remote` dispatcher (src/Remote.ts lines 49–180)

Handlers and addons are defunctionalised: a handler's `handle` function
is a `HandlerBody`, an addon's optional lifecycle callbacks are presence
flags, and both carry a numeric identity standing for JS object/function
identity. Observable behaviour is a trace of `REvent`s: handler
invocations (recording the exact handler identity and the unmodified
command object), `connector.send` calls, and lifecycle-callback calls. -/

/-- The effects of a handler's `handle(cmd)` body. `inert` is an
observation-only handler (invocation recorded, no further effect);
`visitGlobalBody root` is the built-in addon's handler with `root`
standing for `globalThis`. -/
inductive HandlerBody where
  | inert
  | visitGlobalBody (root : JsValue)

/-- An `IRemoteCommandHandler`: the source's `for` tag (Lean keyword, so
named `forTag`), an identity, and the `handle` body. -/
structure RHandler where
  forTag : String
  hid : Nat
  body : HandlerBody

/-- An `IRemoteAddon`, defunctionalised: `use(remote)` returns
`handlers`; the three optional lifecycle callbacks are presence flags. -/
structure Addon where
  aid : Nat
  handlers : List RHandler
  hasOpen : Bool
  hasError : Bool
  hasClose : Bool

/-- Observable events of a dispatcher run. -/
inductive REvent where
  /-- Handler `hid` was invoked via `handle(cmd)` with the parsed
  command object `cmd`. -/
  | invoke (hid : Nat) (cmd : JsValue)
  /-- A call `connector.send text`. -/
  | send (text : String)
  /-- Addon `aid`'s `handleOpen` was invoked. -/
  | openCb (aid : Nat)
  /-- Addon `aid`'s `handleError` was invoked. -/
  | errorCb (aid : Nat)
  /-- Addon `aid`'s `handleClose` was invoked. -/
  | closeCb (aid : Nat)

/-- Errors thrown out of `Remote`'s methods. -/
inductive RError where
  /-- Thrown as `重复注册命令处理器：(handler.for)` from `addAddon`. -/
  | duplicateHandler (tag : String)
  /-- Thrown as `没有注册的命令处理器：(cmd.type)` from `_handleMessage`. -/
  | unknownCommandType (tag : String)
  /-- A JS runtime exception escaping a handler or member access. -/
  | jsErr (e : JsError)
  /-- Means `JSON.parse` threw a SyntaxError. -/
  | badJson

/-- Mutable state of a `Remote` instance: the `_commandHandleMap` (a
`Map`, modelled as an insertion-ordered association list), the
`_addons` array, and whether the four connector listeners installed by
the constructor are still attached (they are removed only by
`dispose`). -/
structure RemoteState where
  commandHandleMap : List (String × RHandler)
  addons : List Addon
  subscribed : Bool

/-- Models `Map.prototype.get` on the registry (first match; keys are unique
because `addAddon` checks `has` before `set`). -/
def lookupHandler : List (String × RHandler) → String → Option RHandler
  | [], _ => none
  | (k, h) :: rest, key => if k = key then some h else lookupHandler rest key

/-- Models `Map.prototype.has` on the registry. -/
def hasKey (m : List (String × RHandler)) (key : String) : Bool :=
  (lookupHandler m key).isSome

/-- The inner loop of `addAddon`: register each handler in order,
throwing `DuplicateHandlerError` on a tag already present (handlers
registered before the offending one stay registered). -/
def registerHandlers (m : List (String × RHandler)) :
    List RHandler → List (String × RHandler) × Option RError
  | [] => (m, none)
  | h :: rest =>
    if hasKey m h.forTag then (m, some (.duplicateHandler h.forTag))
    else registerHandlers (m ++ [(h.forTag, h)]) rest

/-- Models `addAddon(...addons)`: for each addon in argument order, push it to
`_addons`, call `use` (yielding its handler list) and register the
handlers. A thrown `DuplicateHandlerError` aborts the loop but the
mutations already performed persist, so the state is returned alongside
the error. -/
def addAddon (st : RemoteState) : List Addon → RemoteState × Option RError
  | [] => (st, none)
  | a :: rest =>
    let st1 : RemoteState := { st with addons := st.addons ++ [a] }
    match registerHandlers st1.commandHandleMap a.handlers with
    | (m, some e) => ({ st1 with commandHandleMap := m }, some e)
    | (m, none) => addAddon { st1 with commandHandleMap := m } rest

/-- Models `reply(data)`: `connector.send(JSON.stringify(data))`. -/
def reply (data : JsValue) : REvent :=
  .send (jsonStringify data)

/-- An `IRemoteMessage`. -/
structure RemoteMessage where
  subject : String
  data : String

/-- Models `sendMessage(msg)`: `connector.send(JSON.stringify(msg))`, where the
runtime shape of `msg` is the two-field object literal. -/
def sendMessage (msg : RemoteMessage) : REvent :=
  .send (jsonStringify (.vObj [("subject", .vStr msg.subject), ("data", .vStr msg.data)]))

/-- Models `sendError(reason)`: `sendMessage({subject: "error", data: reason})`. -/
def sendError (reason : String) : REvent :=
  sendMessage ⟨"error", reason⟩

/-- The `"visit-global"` handler body (src/Remote.ts lines 30–39):
compute `visitObject(globalThis, cmd)`, then reply with
`{replyId: cmd.replyId, data: typeof result === "object" ?
JSON.stringify(result) : "" + result}`. Errors propagate. -/
def runHandlerBody : HandlerBody → JsValue → List REvent × Option JsError
  | .inert, _ => ([], none)
  | .visitGlobalBody root, cmd =>
    match visitObject root cmd with
    | .error e => ([], some e)
    | .ok result =>
      match getMember cmd "replyId" with
      | .error e => ([], some e)
      | .ok rid =>
        let data : String :=
          if result.jsTypeof = "object" then jsonStringify result else jsToString result
        ([reply (.vObj [("replyId", rid), ("data", .vStr data)])], none)

/-- The command loop of `_handleMessage`: for each command in order,
read `cmd.type`, look it up in the registry, invoke the handler (or
throw `UnknownCommandTypeError`); a thrown exception stops the loop,
keeping the events that already happened. -/
def dispatchCmds (st : RemoteState) : List JsValue → List REvent × Option RError
  | [] => ([], none)
  | cmd :: rest =>
    match getMember cmd "type" with
    | .error e => ([], some (.jsErr e))
    | .ok (.vStr t) =>
      match lookupHandler st.commandHandleMap t with
      | some h =>
        match runHandlerBody h.body cmd with
        | (evs, some e) => (.invoke h.hid cmd :: evs, some (.jsErr e))
        | (evs, none) =>
          match dispatchCmds st rest with
          | (revs, rerr) => (.invoke h.hid cmd :: (evs ++ revs), rerr)
      | none => ([], some (.unknownCommandType t))
    | .ok tv => ([], some (.unknownCommandType (jsToString tv)))

/-- Dispatch of a single command (one iteration of the loop above),
used to state the per-command routing property. -/
def dispatchOne (st : RemoteState) (cmd : JsValue) : List REvent × Option RError :=
  match getMember cmd "type" with
  | .error e => ([], some (.jsErr e))
  | .ok (.vStr t) =>
    match lookupHandler st.commandHandleMap t with
    | some h =>
      match runHandlerBody h.body cmd with
      | (evs, e) => (.invoke h.hid cmd :: evs, e.map RError.jsErr)
    | none => ([], some (.unknownCommandType t))
  | .ok tv => ([], some (.unknownCommandType (jsToString tv)))

/-- Continuation of `_handleMessage` after `JSON.parse`: an array is spread into the
command list, any other value becomes a singleton batch. -/
def dispatchParsed (st : RemoteState) (v : JsValue) : List REvent × Option RError :=
  match v with
  | .vArr cmds => dispatchCmds st cmds
  | _ => dispatchCmds st [v]

/-- Models `_handleMessage(data)`: parse the payload, then dispatch. -/
def handleMessage (st : RemoteState) (data : String) : List REvent × Option RError :=
  match jsonParse data with
  | none => ([], some .badJson)
  | some v => dispatchParsed st v

/-- Models `_handleOpen`: visit `_addons` in order, invoking `handleOpen` where
present. -/
def handleOpen : List Addon → List REvent
  | [] => []
  | a :: rest => (if a.hasOpen then [REvent.openCb a.aid] else []) ++ handleOpen rest

/-- Models `_handleError`: visit `_addons` in order, invoking `handleError`
where present. -/
def handleError : List Addon → List REvent
  | [] => []
  | a :: rest => (if a.hasError then [REvent.errorCb a.aid] else []) ++ handleError rest

/-- Models `_handleClose`: visit `_addons` in order, invoking `handleClose`
where present. -/
def handleClose : List Addon → List REvent
  | [] => []
  | a :: rest => (if a.hasClose then [REvent.closeCb a.aid] else []) ++ handleClose rest

/-- A connector `message` event: the bound `_handleMessage` runs only
while it is still registered on the connector. -/
def fireMessage (st : RemoteState) (data : String) : List REvent × Option RError :=
  if st.subscribed then handleMessage st data else ([], none)

/-- A connector `open` event. -/
def fireOpen (st : RemoteState) : List REvent :=
  if st.subscribed then handleOpen st.addons else []

/-- A connector `error` event. -/
def fireError (st : RemoteState) : List REvent :=
  if st.subscribed then handleError st.addons else []

/-- A connector `close` event. -/
def fireClose (st : RemoteState) : List REvent :=
  if st.subscribed then handleClose st.addons else []

/-- Models `dispose()`: remove the four listeners, clear `_addons` and
`_commandHandleMap`. -/
def dispose (_st : RemoteState) : RemoteState :=
  { commandHandleMap := [], addons := [], subscribed := false }

/-- The built-in `VisitGlobalRemoteAddon`: `use` returns the single
`"visit-global"` handler and no lifecycle callbacks are defined.
`root` stands for `globalThis` (identity 0 for both addon and
handler). -/
def visitGlobalAddon (root : JsValue) : Addon :=
  { aid := 0
    handlers := [{ forTag := "visit-global", hid := 0, body := .visitGlobalBody root }]
    hasOpen := false
    hasError := false
    hasClose := false }

/-- The `Remote` constructor: subscribe the four listeners, then
`addAddon(new VisitGlobalRemoteAddon())` (which cannot fail on the empty
registry). -/
def initialRemote (root : JsValue) : RemoteState :=
  (addAddon { commandHandleMap := [], addons := [], subscribed := true }
    [visitGlobalAddon root]).1

/-! ## Helper lemmas -/

/-- Unfolding one step of the command loop through `dispatchOne`. -/
theorem dispatchCmds_cons (st : RemoteState) (c : JsValue) (cs : List JsValue) :
    dispatchCmds st (c :: cs) =
      match dispatchOne st c with
      | (evs, some e) => (evs, some e)
      | (evs, none) => (evs ++ (dispatchCmds st cs).1, (dispatchCmds st cs).2) := by
  cases hm : getMember c "type" with
  | error e => simp [dispatchCmds, dispatchOne, hm]
  | ok tv =>
    cases tv with
    | vStr t =>
      cases hl : lookupHandler st.commandHandleMap t with
      | none => simp [dispatchCmds, dispatchOne, hm, hl]
      | some h =>
        cases hr : runHandlerBody h.body c with
        | mk evs err =>
          cases err with
          | none =>
            cases hd : dispatchCmds st cs with
            | mk revs rerr => simp [dispatchCmds, dispatchOne, hm, hl, hr, hd]
          | some e => simp [dispatchCmds, dispatchOne, hm, hl, hr]
    | vNull => simp [dispatchCmds, dispatchOne, hm]
    | vUndefined => simp [dispatchCmds, dispatchOne, hm]
    | vBool b => simp [dispatchCmds, dispatchOne, hm]
    | vNum n => simp [dispatchCmds, dispatchOne, hm]
    | vArr l => simp [dispatchCmds, dispatchOne, hm]
    | vObj fields => simp [dispatchCmds, dispatchOne, hm]
    | vFun m => simp [dispatchCmds, dispatchOne, hm]

/-- Batch traces concatenate: if the first segment of a batch runs
without a thrown error, its events strictly precede the second
segment's. -/
theorem dispatchCmds_append (st : RemoteState) (cs1 cs2 : List JsValue)
    (h : (dispatchCmds st cs1).2 = none) :
    dispatchCmds st (cs1 ++ cs2) =
      ((dispatchCmds st cs1).1 ++ (dispatchCmds st cs2).1, (dispatchCmds st cs2).2) := by
  induction cs1 with
  | nil => simp [dispatchCmds]
  | cons c cs ih =>
    rw [dispatchCmds_cons st c cs] at h
    rw [List.cons_append, dispatchCmds_cons st c (cs ++ cs2), dispatchCmds_cons st c cs]
    cases ho : dispatchOne st c with
    | mk evs err =>
      rw [ho] at h
      cases err with
      | some e => simp at h
      | none =>
        simp only at h ⊢
        rw [ih h]
        simp [List.append_assoc]

/-- Lemma: `visitPath` splits over list append. -/
theorem visitPath_append (obj : JsValue) (l1 l2 : List JsValue) :
    visitPath obj (l1 ++ l2) =
      match visitPath obj l1 with
      | .error e => .error e
      | .ok v => visitPath v l2 := by
  induction l1 generalizing obj with
  | nil => simp [visitPath]
  | cons s rest ih =>
    simp only [List.cons_append, visitPath]
    cases visitStep obj s with
    | error e => rfl
    | ok v2 => exact ih v2

/-- A step taken from a nullish current value always throws (the member
read `value[arg]` / `value[arg.name]` faults; for a nullish descriptor
the read `arg.name` faults first with the same TypeError). -/
theorem visitStep_nullish (v s : JsValue) (h : v.isNullish = true) :
    visitStep v s = .error .readOfNullish := by
  cases v with
  | vNull =>
    cases s <;> simp [visitStep, getMember, toPropertyKey, bind, Except.bind]
  | vUndefined =>
    cases s <;> simp [visitStep, getMember, toPropertyKey, bind, Except.bind]
  | vBool b => simp [JsValue.isNullish] at h
  | vNum n => simp [JsValue.isNullish] at h
  | vStr str => simp [JsValue.isNullish] at h
  | vArr l => simp [JsValue.isNullish] at h
  | vObj fields => simp [JsValue.isNullish] at h
  | vFun m => simp [JsValue.isNullish] at h

/-- First-match lookup is preserved by appending entries. -/
theorem lookupHandler_append_left (m rest : List (String × RHandler)) (t : String)
    (h0 : RHandler) (h : lookupHandler m t = some h0) :
    lookupHandler (m ++ rest) t = some h0 := by
  induction m with
  | nil => simp [lookupHandler] at h
  | cons kv m ih =>
    cases kv with
    | mk k hh =>
      by_cases hk : k = t
      · subst hk
        simp [lookupHandler] at h ⊢
        exact h
      · simp [lookupHandler, hk] at h ⊢
        exact ih h

/-- Lookup of an absent key passes through to appended entries. -/
theorem lookupHandler_append_right (m rest : List (String × RHandler)) (t : String)
    (h : lookupHandler m t = none) :
    lookupHandler (m ++ rest) t = lookupHandler rest t := by
  induction m with
  | nil => simp
  | cons kv m ih =>
    cases kv with
    | mk k hh =>
      by_cases hk : k = t
      · subst hk; simp [lookupHandler] at h
      · simp [lookupHandler, hk] at h ⊢
        exact ih h

/-- Handler registration never replaces an existing registry entry. -/
theorem registerHandlers_preserves (m : List (String × RHandler)) (hs : List RHandler)
    (t : String) (h0 : RHandler) (h : lookupHandler m t = some h0) :
    lookupHandler (registerHandlers m hs).1 t = some h0 := by
  induction hs generalizing m with
  | nil => simpa [registerHandlers]
  | cons hh hs ih =>
    simp only [registerHandlers]
    by_cases hk : hasKey m hh.forTag
    · simpa [hk]
    · simp only [hk, if_neg, Bool.false_eq_true, not_false_eq_true, if_false]
      exact ih _ (lookupHandler_append_left m _ t h0 h)

/-- Addon installation never replaces an existing registry entry. -/
theorem addAddon_preserves (st : RemoteState) (addons2 : List Addon)
    (t : String) (h0 : RHandler) (h : lookupHandler st.commandHandleMap t = some h0) :
    lookupHandler (addAddon st addons2).1.commandHandleMap t = some h0 := by
  induction addons2 generalizing st with
  | nil => simpa [addAddon]
  | cons a rest ih =>
    simp only [addAddon]
    cases hr : registerHandlers st.commandHandleMap a.handlers with
    | mk m err =>
      have hm : lookupHandler m t = some h0 := by
        have := registerHandlers_preserves st.commandHandleMap a.handlers t h0 h
        rwa [hr] at this
      cases err with
      | none => exact ih { st with addons := st.addons ++ [a], commandHandleMap := m } hm
      | some e => simpa

/-- Fan-out `_handleOpen` notifies exactly the addons defining `handleOpen`, in
installation order. -/
theorem handleOpen_eq_filter_map (l : List Addon) :
    handleOpen l = (l.filter (fun a => a.hasOpen)).map (fun a => REvent.openCb a.aid) := by
  induction l with
  | nil => rfl
  | cons a rest ih =>
    by_cases h : a.hasOpen <;> simp [handleOpen, List.filter, h, ih]

/-- Fan-out `_handleError` notifies exactly the addons defining `handleError`,
in installation order. -/
theorem handleError_eq_filter_map (l : List Addon) :
    handleError l = (l.filter (fun a => a.hasError)).map (fun a => REvent.errorCb a.aid) := by
  induction l with
  | nil => rfl
  | cons a rest ih =>
    by_cases h : a.hasError <;> simp [handleError, List.filter, h, ih]

/-- Fan-out `_handleClose` notifies exactly the addons defining `handleClose`,
in installation order. -/
theorem handleClose_eq_filter_map (l : List Addon) :
    handleClose l = (l.filter (fun a => a.hasClose)).map (fun a => REvent.closeCb a.aid) := by
  induction l with
  | nil => rfl
  | cons a rest ih =>
    by_cases h : a.hasClose <;> simp [handleClose, List.filter, h, ih]

/-! ## Concrete fixtures used by the closed witnesses -/

/-- An observation-only handler registered for tag `"A"`. -/
def hInertA : RHandler := ⟨"A", 1, .inert⟩

/-- An observation-only handler registered for tag `"B"`. -/
def hInertB : RHandler := ⟨"B", 2, .inert⟩

/-- An addon supplying the two inert handlers, defining `handleOpen` and
`handleClose` but not `handleError`. -/
def wAddon : Addon := ⟨1, [hInertA, hInertB], true, false, true⟩

/-- A dispatcher state with the two inert handlers installed. -/
def wRemote : RemoteState := ⟨[("A", hInertA), ("B", hInertB)], [wAddon], true⟩

/-- The command `{type: "A", x: 1}`. -/
def wCmdA : JsValue := .vObj [("type", .vStr "A"), ("x", .vNum 1)]

/-- The command `{type: "B"}`. -/
def wCmdB : JsValue := .vObj [("type", .vStr "B")]

/-- The command `{type: "C"}` — no handler is registered for `"C"` in `wRemote`. -/
def wCmdC : JsValue := .vObj [("type", .vStr "C")]

/-- The object `{a: {b: "value"}}`, the root object of spec Scenarios A and B. -/
def demoRoot : JsValue := .vObj [("a", .vObj [("b", .vStr "value")])]

/-! ## Claims -/

/-- C1: an inbound payload delivered via the connector's `message` event
is parsed as JSON; an array parse result is treated as an ordered batch
and a non-array as a single command; a command whose type tag has a
registered handler invokes exactly that handler with the full parsed
command object unmodified; and batch traces concatenate in array order,
each handler returning before the next command is dispatched. -/
theorem c1_inbound_routing_and_batch_order
    (st : RemoteState) (data : String) (v cmd : JsValue)
    (cmds cs1 cs2 : List JsValue) (t : String) (h : RHandler) :
    (st.subscribed = true → jsonParse data = some v →
       fireMessage st data = dispatchParsed st v)
    ∧ dispatchParsed st (.vArr cmds) = dispatchCmds st cmds
    ∧ (v.isArr = false → dispatchParsed st v = dispatchCmds st [v])
    ∧ (getMember cmd "type" = .ok (.vStr t) →
       lookupHandler st.commandHandleMap t = some h →
       dispatchOne st cmd =
         (.invoke h.hid cmd :: (runHandlerBody h.body cmd).1,
          ((runHandlerBody h.body cmd).2).map RError.jsErr))
    ∧ (dispatchCmds st (cmd :: cmds) =
        match dispatchOne st cmd with
        | (evs, some e) => (evs, some e)
        | (evs, none) => (evs ++ (dispatchCmds st cmds).1, (dispatchCmds st cmds).2))
    ∧ ((dispatchCmds st cs1).2 = none →
       dispatchCmds st (cs1 ++ cs2) =
         ((dispatchCmds st cs1).1 ++ (dispatchCmds st cs2).1, (dispatchCmds st cs2).2)) := by
  refine ⟨?_, rfl, ?_, ?_, dispatchCmds_cons st cmd cmds, dispatchCmds_append st cs1 cs2⟩
  · intro hs hp
    simp [fireMessage, hs, handleMessage, hp]
  · intro hv
    cases v with
    | vArr l => simp [JsValue.isArr] at hv
    | vNull => rfl
    | vUndefined => rfl
    | vBool b => rfl
    | vNum n => rfl
    | vStr s => rfl
    | vObj fields => rfl
    | vFun m => rfl
  · intro h1 h2
    cases hr : runHandlerBody h.body cmd with
    | mk evs err => simp [dispatchOne, h1, h2, hr]

/-- Closed instance of C1: a two-command batch payload on `wRemote`
dispatches handler A then handler B, their traces concatenating. -/
theorem c1_inbound_routing_and_batch_order_witness :
    fireMessage wRemote "[\x7b\"type\":\"A\",\"x\":1\x7d,\x7b\"type\":\"B\"\x7d]"
        = dispatchParsed wRemote (.vArr [wCmdA, wCmdB])
    ∧ dispatchOne wRemote wCmdA =
        (.invoke hInertA.hid wCmdA :: (runHandlerBody hInertA.body wCmdA).1,
         ((runHandlerBody hInertA.body wCmdA).2).map RError.jsErr)
    ∧ dispatchCmds wRemote ([wCmdA] ++ [wCmdB]) =
        ((dispatchCmds wRemote [wCmdA]).1 ++ (dispatchCmds wRemote [wCmdB]).1,
         (dispatchCmds wRemote [wCmdB]).2) :=
  ⟨(c1_inbound_routing_and_batch_order wRemote
      "[\x7b\"type\":\"A\",\"x\":1\x7d,\x7b\"type\":\"B\"\x7d]"
      (.vArr [wCmdA, wCmdB]) wCmdA [] [wCmdA] [wCmdB] "A" hInertA).1 rfl rfl,
   (c1_inbound_routing_and_batch_order wRemote "" (.vArr []) wCmdA [] [] []
      "A" hInertA).2.2.2.1 rfl rfl,
   (c1_inbound_routing_and_batch_order wRemote "" (.vArr []) wCmdA [] [wCmdA] [wCmdB]
      "A" hInertA).2.2.2.2.2 rfl⟩

/-- C3: a command whose `type` has no registered handler raises
`UnknownCommandTypeError` naming that type, invokes no handler, and
inside a batch the commands after it are not processed (the trace ends
with the events of the preceding commands). -/
theorem c3_unknown_command_type (st : RemoteState) (t : String) (cmd : JsValue)
    (pre post : List JsValue) :
    (getMember cmd "type" = .ok (.vStr t) → hasKey st.commandHandleMap t = false →
       dispatchCmds st [cmd] = ([], some (.unknownCommandType t)))
    ∧ (getMember cmd "type" = .ok (.vStr t) → hasKey st.commandHandleMap t = false →
       (dispatchCmds st pre).2 = none →
       dispatchCmds st (pre ++ cmd :: post) =
         ((dispatchCmds st pre).1, some (.unknownCommandType t))) := by
  have key : ∀ cs : List JsValue, getMember cmd "type" = .ok (.vStr t) →
      hasKey st.commandHandleMap t = false →
      dispatchCmds st (cmd :: cs) = ([], some (.unknownCommandType t)) := by
    intro cs h1 h2
    have hl : lookupHandler st.commandHandleMap t = none := by
      simpa [hasKey, Option.isSome_iff_exists] using h2
    simp [dispatchCmds, h1, hl]
  refine ⟨fun h1 h2 => key [] h1 h2, fun h1 h2 hpre => ?_⟩
  rw [dispatchCmds_append st pre (cmd :: post) hpre, key post h1 h2]
  simp

/-- Closed instance of C3: `{type: "C"}` is unknown to `wRemote`; alone
it produces no events, and inside the batch `[A, C, B]` only A's
invocation happens. -/
theorem c3_unknown_command_type_witness :
    dispatchCmds wRemote [wCmdC] = ([], some (.unknownCommandType "C"))
    ∧ dispatchCmds wRemote ([wCmdA] ++ wCmdC :: [wCmdB]) =
        ((dispatchCmds wRemote [wCmdA]).1, some (.unknownCommandType "C")) :=
  ⟨(c3_unknown_command_type wRemote "C" wCmdC [] []).1 rfl rfl,
   (c3_unknown_command_type wRemote "C" wCmdC [wCmdA] [wCmdB]).2 rfl rfl rfl⟩

/-- C4: each connector lifecycle event (`open`, `error`, `close`)
notifies exactly the installed addons that define the matching callback,
once each, in installation order; addons without the callback are
skipped without error. -/
theorem c4_lifecycle_fanout (st : RemoteState) (hs : st.subscribed = true) :
    fireOpen st = (st.addons.filter (fun a => a.hasOpen)).map (fun a => REvent.openCb a.aid)
    ∧ fireError st = (st.addons.filter (fun a => a.hasError)).map (fun a => REvent.errorCb a.aid)
    ∧ fireClose st = (st.addons.filter (fun a => a.hasClose)).map (fun a => REvent.closeCb a.aid) := by
  simp [fireOpen, fireError, fireClose, hs, handleOpen_eq_filter_map,
    handleError_eq_filter_map, handleClose_eq_filter_map]

/-- Closed instance of C4 on `wRemote`: its addon defines `handleOpen`
and `handleClose` but not `handleError`, so `open`/`close` fan out to it
and `error` fans out to nobody. -/
theorem c4_lifecycle_fanout_witness :
    fireOpen wRemote = [REvent.openCb 1]
    ∧ fireError wRemote = []
    ∧ fireClose wRemote = [REvent.closeCb 1] := by
  obtain ⟨h1, h2, h3⟩ := c4_lifecycle_fanout wRemote rfl
  exact ⟨h1.trans rfl, h2.trans rfl, h3.trans rfl⟩

/-- C7: after `dispose()` the addon list and registry are empty and the
four connector callbacks are detached, so connector events invoke no
addon callback; and installing a new addon registering any tag (in
particular a previously used one) succeeds, the new handler becoming the
registered one. -/
theorem c7_dispose_detaches_and_clears (st : RemoteState) (data : String)
    (t : String) (aid hid2 : Nat) (b : HandlerBody) :
    (dispose st).addons = []
    ∧ (dispose st).commandHandleMap = []
    ∧ (dispose st).subscribed = false
    ∧ fireMessage (dispose st) data = ([], none)
    ∧ fireOpen (dispose st) = []
    ∧ fireError (dispose st) = []
    ∧ fireClose (dispose st) = []
    ∧ (addAddon (dispose st) [⟨aid, [⟨t, hid2, b⟩], false, false, false⟩]).2 = none
    ∧ lookupHandler
        (addAddon (dispose st) [⟨aid, [⟨t, hid2, b⟩], false, false, false⟩]).1.commandHandleMap t
        = some ⟨t, hid2, b⟩ := by
  refine ⟨rfl, rfl, rfl, rfl, rfl, rfl, rfl, ?_, ?_⟩ <;>
    simp [dispose, addAddon, registerHandlers, hasKey, lookupHandler]

/-- C2: registering a handler whose `for` tag is already present —
whether the tag came from an earlier `addAddon` call or from an earlier
handler of the same call — throws `DuplicateHandlerError` carrying that
tag; an existing registry entry is never replaced; and the
first-registered handler remains the one invoked on subsequent dispatch
of that tag. -/
theorem c2_duplicate_handler_registration
    (st : RemoteState) (more : List Addon) (t : String) (h0 h1 h2 : RHandler)
    (aid : Nat) (cmd : JsValue) :
    (hasKey st.commandHandleMap t = true → h1.forTag = t →
       (addAddon st [⟨aid, [h1], false, false, false⟩]).2 = some (.duplicateHandler t))
    ∧ (hasKey st.commandHandleMap t = false → h1.forTag = t → h2.forTag = t →
       (addAddon st [⟨aid, [h1, h2], false, false, false⟩]).2 = some (.duplicateHandler t)
       ∧ lookupHandler
           (addAddon st [⟨aid, [h1, h2], false, false, false⟩]).1.commandHandleMap t
           = some h1)
    ∧ (lookupHandler st.commandHandleMap t = some h0 →
       lookupHandler (addAddon st more).1.commandHandleMap t = some h0)
    ∧ (lookupHandler st.commandHandleMap t = some h0 →
       getMember cmd "type" = .ok (.vStr t) →
       (dispatchOne (addAddon st more).1 cmd).1.head? = some (.invoke h0.hid cmd)) := by
  refine ⟨?_, ?_, addAddon_preserves st more t h0, ?_⟩
  · intro hk h1t
    simp [addAddon, registerHandlers, h1t, hk]
  · intro hk h1t h2t
    have hnone : lookupHandler st.commandHandleMap t = none := by
      simpa [hasKey, Option.isSome_iff_exists] using hk
    have hsnd : lookupHandler (st.commandHandleMap ++ [(t, h1)]) t = some h1 := by
      rw [lookupHandler_append_right st.commandHandleMap [(t, h1)] t hnone]
      simp [lookupHandler]
    constructor
    · simp [addAddon, registerHandlers, h1t, h2t, hasKey, hnone, hsnd]
    · simp [addAddon, registerHandlers, h1t, h2t, hasKey, hnone, hsnd]
  · intro hl hcmd
    have hl2 := addAddon_preserves st more t h0 hl
    cases hr : runHandlerBody h0.body cmd with
    | mk evs err => simp [dispatchOne, hcmd, hl2, hr]

/-- Closed instance of C2 on `wRemote`: re-registering tag `"A"` from a
new addon throws; an addon carrying two `"D"` handlers throws on its
second handler while its first stays registered; tag `"A"` still maps to
the original handler afterwards and still receives dispatch. -/
theorem c2_duplicate_handler_registration_witness :
    (addAddon wRemote [⟨3, [⟨"A", 7, .inert⟩], false, false, false⟩]).2
        = some (.duplicateHandler "A")
    ∧ (addAddon wRemote [⟨2, [⟨"D", 5, .inert⟩, ⟨"D", 6, .inert⟩], false, false, false⟩]).2
        = some (.duplicateHandler "D")
    ∧ lookupHandler
        (addAddon wRemote
          [⟨2, [⟨"D", 5, .inert⟩, ⟨"D", 6, .inert⟩], false, false, false⟩]).1.commandHandleMap "D"
        = some ⟨"D", 5, .inert⟩
    ∧ lookupHandler
        (addAddon wRemote
          [⟨2, [⟨"D", 5, .inert⟩, ⟨"D", 6, .inert⟩], false, false, false⟩]).1.commandHandleMap "A"
        = some hInertA
    ∧ (dispatchOne
        (addAddon wRemote
          [⟨2, [⟨"D", 5, .inert⟩, ⟨"D", 6, .inert⟩], false, false, false⟩]).1 wCmdA).1.head?
        = some (.invoke hInertA.hid wCmdA) :=
  ⟨(c2_duplicate_handler_registration wRemote [] "A" hInertA ⟨"A", 7, .inert⟩
      ⟨"A", 7, .inert⟩ 3 wCmdA).1 rfl rfl,
   ((c2_duplicate_handler_registration wRemote [] "D" hInertA ⟨"D", 5, .inert⟩
      ⟨"D", 6, .inert⟩ 2 wCmdA).2.1 rfl rfl rfl).1,
   ((c2_duplicate_handler_registration wRemote [] "D" hInertA ⟨"D", 5, .inert⟩
      ⟨"D", 6, .inert⟩ 2 wCmdA).2.1 rfl rfl rfl).2,
   (c2_duplicate_handler_registration wRemote
      [⟨2, [⟨"D", 5, .inert⟩, ⟨"D", 6, .inert⟩], false, false, false⟩] "A" hInertA
      ⟨"D", 5, .inert⟩ ⟨"D", 6, .inert⟩ 2 wCmdA).2.2.1 rfl,
   (c2_duplicate_handler_registration wRemote
      [⟨2, [⟨"D", 5, .inert⟩, ⟨"D", 6, .inert⟩], false, false, false⟩] "A" hInertA
      ⟨"D", 5, .inert⟩ ⟨"D", 6, .inert⟩ 2 wCmdA).2.2.2 rfl rfl⟩

/-- C5 counterexample: on root `{a: {b: "value"}}` the path
`["a", "missing", "b"]` traverses a missing member at an intermediate
step, and `visitObject` throws a TypeError instead of stopping with the
empty result — resolution does not stop at a nullish intermediate
value. -/
theorem c5_intermediate_missing_throws :
    visitObject demoRoot (.vArr [.vStr "a", .vStr "missing", .vStr "b"])
      = .error .readOfNullish := rfl

/-- C5 (amended): the nullish coalescing of `visitObject` applies only
after the last step — if the value remaining after all steps is
`undefined`/`null` the result is the empty string and no error; but if
the value becomes nullish while steps remain, the next step throws a
TypeError. -/
theorem c5_nullish_result_empty_only_at_final_step
    (obj v s : JsValue) (steps rest : List JsValue) :
    (visitPath obj steps = .ok v → v.isNullish = true →
       visitObject obj (.vArr steps) = .ok (.vStr ""))
    ∧ (visitPath obj steps = .ok v → v.isNullish = true →
       visitObject obj (.vArr (steps ++ s :: rest)) = .error .readOfNullish) := by
  constructor
  · intro hp hv
    simp [visitObject, iterateJs, hp, coalesceEmpty, hv]
  · intro hp hv
    simp only [visitObject, iterateJs, visitPath_append, hp]
    simp [visitPath, visitStep_nullish v s hv]

/-- Closed instance of C5 (amended), spec Scenario B: path
`["a", "b", "missing"]` on `{a: {b: "value"}}` ends on `undefined` and
yields the empty string, while one more step after the missing member
throws. -/
theorem c5_nullish_result_empty_only_at_final_step_witness :
    visitPath demoRoot [.vStr "a", .vStr "b", .vStr "missing"] = .ok .vUndefined
    ∧ visitObject demoRoot (.vArr [.vStr "a", .vStr "b", .vStr "missing"]) = .ok (.vStr "")
    ∧ visitObject demoRoot
        (.vArr ([.vStr "a", .vStr "b", .vStr "missing"] ++ [.vStr "x"])) = .error .readOfNullish :=
  ⟨rfl,
   (c5_nullish_result_empty_only_at_final_step demoRoot .vUndefined (.vStr "x")
      [.vStr "a", .vStr "b", .vStr "missing"] []).1 rfl rfl,
   (c5_nullish_result_empty_only_at_final_step demoRoot .vUndefined (.vStr "x")
      [.vStr "a", .vStr "b", .vStr "missing"] []).2 rfl rfl⟩

/-- C8: a method-call descriptor step `{name, args?}` resolves by
calling the method found under `name` on the current value with the
descriptor's argument list (empty when `args` is absent), the
pre-invocation current value bound as the receiver, the return value
becoming the next current value. -/
theorem c8_method_call_step (obj v : JsValue) (pre post args1 : List JsValue)
    (n : String) (m : Method) :
    (visitPath obj pre = .ok v →
     getMember v n = .ok (.vFun m) →
     visitObject obj (.vArr (pre ++ (.vObj [("name", .vStr n), ("args", .vArr args1)]) :: post))
       = visitObject (applyMethod m v args1) (.vArr post))
    ∧ (visitPath obj pre = .ok v →
       getMember v n = .ok (.vFun m) →
       visitObject obj (.vArr (pre ++ (.vObj [("name", .vStr n)]) :: post))
         = visitObject (applyMethod m v []) (.vArr post)) := by
  constructor
  · intro hp hm
    have h1 : getMember (.vObj [("name", .vStr n), ("args", .vArr args1)]) "name"
        = .ok (.vStr n) := by simp [getMember, lookupField]
    have h2 : getMember (.vObj [("name", .vStr n), ("args", .vArr args1)]) "args"
        = .ok (.vArr args1) := by simp [getMember, lookupField]
    have h3 : toPropertyKey (.vStr n) = n := by simp [toPropertyKey, jsToString]
    have hstep : visitStep v (.vObj [("name", .vStr n), ("args", .vArr args1)])
        = .ok (applyMethod m v args1) := by
      simp [visitStep, h1, h2, h3, hm, spreadArgsOrEmpty, bind, Except.bind]
    simp only [visitObject, iterateJs, visitPath_append, hp, visitPath, hstep]
  · intro hp hm
    have h1 : getMember (.vObj [("name", .vStr n)]) "name" = .ok (.vStr n) := by
      simp [getMember, lookupField]
    have h2 : getMember (.vObj [("name", .vStr n)]) "args" = .ok .vUndefined := by
      simp [getMember, lookupField]
    have h3 : toPropertyKey (.vStr n) = n := by simp [toPropertyKey, jsToString]
    have hstep : visitStep v (.vObj [("name", .vStr n)])
        = .ok (applyMethod m v []) := by
      simp [visitStep, h1, h2, h3, hm, spreadArgsOrEmpty, bind, Except.bind]
    simp only [visitObject, iterateJs, visitPath_append, hp, visitPath, hstep]

/-- Closed instance of C8, spec Scenario C: the step
`{"name": "c", "args": ["x", "y"]}` on `{c(p, q) {return p + q + this.prop},
prop: "z"}` calls the method with receiver bound, producing `"xyz"`. -/
theorem c8_method_call_step_witness :
    visitObject (.vObj [("c", .vFun (.concatArgsThenProp "prop")), ("prop", .vStr "z")])
        (.vArr [.vObj [("name", .vStr "c"), ("args", .vArr [.vStr "x", .vStr "y"])]])
      = visitObject
          (applyMethod (.concatArgsThenProp "prop")
            (.vObj [("c", .vFun (.concatArgsThenProp "prop")), ("prop", .vStr "z")])
            [.vStr "x", .vStr "y"])
          (.vArr [])
    ∧ visitObject
        (applyMethod (.concatArgsThenProp "prop")
          (.vObj [("c", .vFun (.concatArgsThenProp "prop")), ("prop", .vStr "z")])
          [.vStr "x", .vStr "y"])
        (.vArr []) = .ok (.vStr "xyz") := by
  refine ⟨(c8_method_call_step
    (.vObj [("c", .vFun (.concatArgsThenProp "prop")), ("prop", .vStr "z")])
    (.vObj [("c", .vFun (.concatArgsThenProp "prop")), ("prop", .vStr "z")])
    [] [] [.vStr "x", .vStr "y"] "c" (.concatArgsThenProp "prop")).1 rfl rfl, ?_⟩
  simp [visitObject, iterateJs, visitPath, applyMethod, objGet, lookupField,
    jsToString, coalesceEmpty, JsValue.isNullish]
  rfl

/-- C10: on the empty visit path `visitObject` returns its root
unchanged when the root is not nullish and the empty string when it is;
and whenever `visitObject` returns a value at all, that value is neither
`null` nor `undefined`. -/
theorem c10_empty_path_and_never_nullish (obj args v : JsValue) :
    (obj.isNullish = false → visitObject obj (.vArr []) = .ok obj)
    ∧ (obj.isNullish = true → visitObject obj (.vArr []) = .ok (.vStr ""))
    ∧ (visitObject obj args = .ok v → v.isNullish = false) := by
  refine ⟨?_, ?_, ?_⟩
  · intro h
    simp [visitObject, iterateJs, visitPath, coalesceEmpty, h]
  · intro h
    simp [visitObject, iterateJs, visitPath, coalesceEmpty, h]
  · intro h
    unfold visitObject at h
    cases hi : iterateJs args with
    | none => rw [hi] at h; simp at h
    | some steps =>
      rw [hi] at h
      simp only [] at h
      cases hp : visitPath obj steps with
      | error e => simp [hp] at h
      | ok w =>
        simp only [hp, Except.ok.injEq] at h
        subst h
        cases w <;> simp [coalesceEmpty, JsValue.isNullish]

/-- Closed instance of C10: the empty path is the identity on the
object `{k: 1}`, maps `null` to the empty string, and a returned value
(here `"s"`) is never nullish. -/
theorem c10_empty_path_and_never_nullish_witness :
    visitObject (.vObj [("k", .vNum 1)]) (.vArr []) = .ok (.vObj [("k", .vNum 1)])
    ∧ visitObject .vNull (.vArr []) = .ok (.vStr "")
    ∧ JsValue.isNullish (.vStr "s") = false :=
  ⟨(c10_empty_path_and_never_nullish (.vObj [("k", .vNum 1)]) (.vArr []) .vNull).1 rfl,
   (c10_empty_path_and_never_nullish .vNull (.vArr []) .vNull).2.1 rfl,
   (c10_empty_path_and_never_nullish (.vStr "s") (.vArr []) (.vStr "s")).2.2 rfl⟩

/-- C9: `sendError(reason)` is exactly
`sendMessage({subject: "error", data: reason})`; the connector receives
the JSON serialisation of that two-field object, and in particular
`sendError("boom")` sends the literal error message text. -/
theorem c9_send_error_is_error_message (reason : String) :
    sendError reason = sendMessage ⟨"error", reason⟩
    ∧ sendMessage ⟨"error", reason⟩
        = .send ("\x7b\"subject\":\"error\",\"data\":\"" ++ jsonEscapeStr reason ++ "\"\x7d")
    ∧ sendError "boom" = .send "\x7b\"subject\":\"error\",\"data\":\"boom\"\x7d" := by
  refine ⟨rfl, ?_, ?_⟩
  · have e1 : jsonEscapeStr "subject" = "subject" := rfl
    have e2 : jsonEscapeStr "data" = "data" := rfl
    have e3 : jsonEscapeStr "error" = "error" := rfl
    simp [sendMessage, jsonStringify, jsonFields, jsonSkipped, joinComma, jsonQuote,
      e1, e2, e3]
    generalize jsonEscapeStr reason = s
    simp only [String.append_assoc]
    cases s with
    | mk l => rfl
  · simp [sendError, sendMessage, jsonStringify, jsonFields, jsonSkipped, joinComma,
      jsonQuote, jsonEscapeStr, jsonEscapeChar]
    rfl

/-- C6 (code behaviour at the spec's Scenario A input): the built-in
`visit-global` handler receives the parsed command object itself as the
visit path; a JSON-parsed object is not iterable, so `for...of` inside
`visitObject` throws a TypeError and no Reply is sent — instead of the
Reply `{"replyId":"r1","data":"value"}` the claim requires. -/
theorem c6_visit_global_dispatch_throws :
    jsonParse "\x7b\"type\":\"visit-global\",\"replyId\":\"r1\",\"0\":\"a\",\"1\":\"b\"\x7d"
      = some (.vObj [("type", .vStr "visit-global"), ("replyId", .vStr "r1"),
          ("0", .vStr "a"), ("1", .vStr "b")])
    ∧ handleMessage (initialRemote demoRoot)
        "\x7b\"type\":\"visit-global\",\"replyId\":\"r1\",\"0\":\"a\",\"1\":\"b\"\x7d"
      = ([.invoke 0 (.vObj [("type", .vStr "visit-global"), ("replyId", .vStr "r1"),
            ("0", .vStr "a"), ("1", .vStr "b")])],
         some (.jsErr .notIterable)) :=
  ⟨rfl, rfl⟩

end JsDom
